import Mathlib

/-!
Verification of the Smart Airport Ride Pooling System core.

This file shallowly embeds the domain logic of the repository in Lean 4:

* `src/domain/pricing.py` — surge computation and pool-discount pricing.
* `src/domain/enums.py`, `src/domain/entities.py` — the ride lifecycle
  state machine.
* `src/infrastructure/locks.py` — the Redis distributed lock, modelled as a
  pure transformer on the stored value of one Redis key.
* `src/domain/matching.py` — the detour evaluator (`detour_ok`,
  `_shared_leg`).
* `src/workers/matcher.py` — one greedy matching cycle
  (`run_matching_cycle`).

Modelling conventions: Python floats are modelled by `ℚ`; `round(x, 2)` is
modelled by rational rounding to two decimals.  The transcendental
haversine distance and the H3 cell indexer are kept abstract: every
definition that needs them is parameterised by a distance function
`distKm : Point → Point → ℚ` and a cell function `cellOf : Point → ℕ`
(the matcher's logic never inspects their values beyond comparisons, so
every control-flow claim is proved for all such functions).
-/

namespace SmartAirport

/-- A geo point `(lat, lng)` with rational coordinates. -/
abbrev Point : Type := ℚ × ℚ

/-! ## Pricing (`src/domain/pricing.py`) -/

/-- Python's `round(x, 2)` modelled on rationals: round to two decimals
(Python's float `round` is exact on every value these claims touch). -/
def round2 (x : ℚ) : ℚ := (round (x * 100) : ℤ) / 100

/-- `PoolDiscountPricing.__init__`:
`self.discount = self.DISCOUNTS.get(min(passenger_position, 3), 0.30)`
with `DISCOUNTS = {1: 0.0, 2: 0.20, 3: 0.30}`. -/
def discountFor (passenger_position : ℤ) : ℚ :=
  let k := min passenger_position 3
  if k = 1 then 0 else if k = 2 then 1/5 else if k = 3 then 3/10 else 3/10

/-- `PoolDiscountPricing.calculate`:
`raw = (base_fare + distance_km * rate_per_km) * self.surge_multiplier;`
`return round(raw * (1 - self.discount), 2)`. -/
def poolCalculate (distance_km base_fare rate_per_km : ℚ)
    (passenger_position : ℤ) (surge_multiplier : ℚ) : ℚ :=
  round2 ((base_fare + distance_km * rate_per_km) * surge_multiplier
    * (1 - discountFor passenger_position))

/-- `PricingEngine.compute_surge`:
`if available_cabs <= 0: return 3.0;`
`return min(3.0, max(1.0, active_requests / available_cabs))`. -/
def compute_surge (active_requests available_cabs : ℤ) : ℚ :=
  if available_cabs ≤ 0 then 3
  else min 3 (max 1 ((active_requests : ℚ) / (available_cabs : ℚ)))

/-! ## Ride lifecycle (`src/domain/enums.py`, `src/domain/entities.py`) -/

/-- `RideStatus` enumeration. -/
inductive RideStatus : Type
  | PENDING
  | MATCHED
  | ON_TRIP
  | COMPLETED
  | CANCELLED
deriving DecidableEq, Repr

/-- `RIDE_TRANSITIONS`: current status → allowed next statuses. -/
def RIDE_TRANSITIONS : RideStatus → List RideStatus
  | .PENDING => [.MATCHED, .CANCELLED]
  | .MATCHED => [.ON_TRIP, .CANCELLED]
  | .ON_TRIP => [.COMPLETED]
  | .COMPLETED => []
  | .CANCELLED => []

/-- The ride record as the matcher and the state machine see it
(`RideModel` columns used by the core; coordinates as a `Point`). -/
structure Ride : Type where
  id : ℕ
  pickup : Point
  dropoff : Point
  status : RideStatus
  seats_requested : ℕ
  luggage_count : ℕ
  ride_group_id : Option ℕ
  price : Option ℚ
deriving DecidableEq, Repr

/-- `Ride.transition_to`: raise `InvalidStateTransition` (modelled as
`Except.error ()`) when the target is not allowed from the current
status, else set the status.  Python raises before any mutation, so on
error the caller's ride is unchanged. -/
def transition_to (r : Ride) (new_status : RideStatus) :
    Except Unit Ride :=
  if new_status ∈ RIDE_TRANSITIONS r.status then
    .ok { r with status := new_status }
  else .error ()

/-! ## Distributed lock (`src/infrastructure/locks.py`)

The Redis state for one lock key is `Option String`: `none` when the key
is unset, `some t` when token `t` is stored. -/

/-- `DistributedLock.acquire`: `SET key token NX` — succeeds only when the
key is unset; returns the new key state and the boolean result. -/
def lock_acquire (stored : Option String) (token : String) :
    Option String × Bool :=
  match stored with
  | none => (some token, true)
  | some t => (some t, false)

/-- `DistributedLock.release`: the Lua script deletes the key only when it
still holds this holder's token, else leaves it untouched. -/
def lock_release (stored : Option String) (token : String) :
    Option String :=
  match stored with
  | none => none
  | some t => if t = token then none else some t

/-! ## Detour evaluator (`src/domain/matching.py`)

`haversine_km` is transcendental, so the evaluator is parameterised by an
abstract distance function `distKm`. -/

section Detour

variable (distKm : Point → Point → ℚ)

/-- `_shared_leg(pickups, dropoffs, passenger_idx)`: sum of consecutive
hop distances from stop index `i` to stop index `len(pickups) + i` along
`stops = pickups + dropoffs`. -/
def shared_leg (pickups dropoffs : List Point) (passenger_idx : ℕ) : ℚ :=
  let stops := pickups ++ dropoffs
  (List.range' passenger_idx pickups.length).foldl
    (fun acc j =>
      acc + distKm (stops.getD j (0, 0)) (stops.getD (j + 1) (0, 0))) 0

/-- The body of the `for i, (p, d) in enumerate(zip(all_pickups,
all_dropoffs))` loop of `detour_ok`, with its early `return False`:
`i` is the index of the head of the remaining `(pickup, dropoff)` list. -/
def detourScan (ap ad : List Point) (tolerance : ℚ) :
    ℕ → List (Point × Point) → Bool
  | _, [] => true
  | i, (p, d) :: rest =>
    let direct := distKm p d
    if direct < 1/10 then detourScan ap ad tolerance (i + 1) rest
    else if (1 + tolerance) * direct < shared_leg distKm ap ad i then false
    else detourScan ap ad tolerance (i + 1) rest

/-- `detour_ok(existing_pickups, existing_dropoffs, new_pickup,
new_dropoff, tolerance)`: append the candidate last, then scan all
passengers in order. -/
def detour_ok (existing_pickups existing_dropoffs : List Point)
    (new_pickup new_dropoff : Point) (tolerance : ℚ) : Bool :=
  let all_pickups := existing_pickups ++ [new_pickup]
  let all_dropoffs := existing_dropoffs ++ [new_dropoff]
  detourScan distKm all_pickups all_dropoffs tolerance 0
    (all_pickups.zip all_dropoffs)

/-- The spec's per-passenger acceptance condition over the concatenated
stop list `ap ++ ad`: passenger `i` is exempt when its direct distance is
below 0.1 km, else its shared leg must be within `(1 + tolerance)` times
its direct distance. -/
def passengerOk (ap ad : List Point) (tolerance : ℚ) (i : ℕ) : Prop :=
  distKm (ap.getD i (0, 0)) (ad.getD i (0, 0)) < 1/10 ∨
    shared_leg distKm ap ad i ≤
      (1 + tolerance) * distKm (ap.getD i (0, 0)) (ad.getD i (0, 0))

end Detour

/-! ## The matching worker (`src/workers/matcher.py`)

One cycle of `run_matching_cycle`, embedded as a pure transformation of
the session state.  The database tables visible to the cycle (rides,
ride groups, cabs) form a `Store`; `Store.rides` is kept in creation-time
order, matching `RideRepository.get_pending_rides`'s
`ORDER BY created_at`.  H3 cell ids are abstracted to `ℕ` via the
parameter `cellOf`. -/

/-- `CabModel` columns used by the matcher. -/
structure Cab : Type where
  id : ℕ
  max_seats : ℕ
  max_luggage : ℕ
  is_available : Bool
deriving DecidableEq, Repr

/-- Group status strings `"ACTIVE"` / `"INACTIVE"`. -/
inductive GroupStatus : Type
  | ACTIVE
  | INACTIVE
deriving DecidableEq, Repr

/-- `RideGroupModel` columns used by the matcher. -/
structure RideGroupModel : Type where
  id : ℕ
  cab_id : Option ℕ
  seats_occupied : ℕ
  luggage_occupied : ℕ
  status : GroupStatus
  h3_cell : ℕ
deriving DecidableEq, Repr

/-- The `gdata[g.id]` entry: the group's pickup and dropoff join
history, in join order. -/
abbrev GData : Type := List Point × List Point

/-- The session state (the tables the cycle reads and mutates).
`nextGroupId` models the id the database sequence hands out at the next
`group_repo.create` flush. -/
structure Store : Type where
  rides : List Ride
  groups : List RideGroupModel
  cabs : List Cab
  nextGroupId : ℕ
deriving DecidableEq, Repr

/-- Working state while grouping one cell: the cell's candidate group
list (each paired with its `gdata`), plus the session tables and the
running `matched` counter. -/
structure CellState : Type where
  entries : List (RideGroupModel × GData)
  cabs : List Cab
  rides : List Ride
  nextGroupId : ℕ
  matched : ℕ
deriving DecidableEq, Repr

/-- Mutation of the ride object with primary key `i` in the session. -/
def updateRide (rides : List Ride) (i : ℕ) (f : Ride → Ride) :
    List Ride :=
  rides.map fun x => if x.id = i then f x else x

/-- The fields set on a ride when it is matched:
`ride.status = MATCHED; ride.ride_group_id = gid; ride.price = p`. -/
def matchRide (gid : ℕ) (p : ℚ) (x : Ride) : Ride :=
  { x with status := .MATCHED, ride_group_id := some gid, price := some p }

section Matcher

variable (distKm : Point → Point → ℚ) (cellOf : Point → ℕ)
variable (base_fare rate_per_km tolerance : ℚ)

/-- `PricingEngine.calculate_price`: haversine distance between pickup
and dropoff, surge from the demand/supply counts, then the
pool-discount strategy. -/
def calculate_price (pickup dropoff : Point) (passenger_position : ℤ)
    (active_requests available_cabs : ℤ) : ℚ :=
  poolCalculate (distKm pickup dropoff) base_fare rate_per_km
    passenger_position (compute_surge active_requests available_cabs)

/-- One iteration of the inner `for g in groups` scan: the capacity
check (`cab.max_seats` / `cab.max_luggage` when the group's cab is
found, defaults 4 / 3 otherwise) and the detour check. -/
def accepts (cabs : List Cab) (e : RideGroupModel × GData) (r : Ride) :
    Bool :=
  let limits :=
    match e.1.cab_id.bind (fun cid => cabs.find? (fun c => c.id = cid)) with
    | some c => (c.max_seats, c.max_luggage)
    | none => (4, 3)
  decide (e.1.seats_occupied + r.seats_requested ≤ limits.1) &&
  decide (e.1.luggage_occupied + r.luggage_count ≤ limits.2) &&
  detour_ok distKm e.2.1 e.2.2 r.pickup r.dropoff tolerance

/-- The in-place mutations on the first accepting group: occupancy
increments and `gdata` appends. -/
def joinEntry (r : Ride) (e : RideGroupModel × GData) :
    RideGroupModel × GData :=
  ({ e.1 with
      seats_occupied := e.1.seats_occupied + r.seats_requested,
      luggage_occupied := e.1.luggage_occupied + r.luggage_count },
   (e.2.1 ++ [r.pickup], e.2.2 ++ [r.dropoff]))

/-- The `for g in groups: ... break` scan for one ride: on the first
group passing both checks, return the updated candidate list, the
group's id, and `position = len(gdata[g.id]["pickups"])` after the
append; `none` when no group accepts. -/
def scanGroups (cabs : List Cab) (r : Ride) :
    List (RideGroupModel × GData) →
    Option (List (RideGroupModel × GData) × ℕ × ℕ)
  | [] => none
  | e :: rest =>
    if accepts distKm tolerance cabs e r then
      some (joinEntry r e :: rest, e.1.id, e.2.1.length + 1)
    else
      (scanGroups cabs r rest).map fun (l, gid, pos) => (e :: l, gid, pos)

/-- The body of `for ride in rides_in_cell`: join the first accepting
group, else create a new group around the first available cab (or no
cab), mark that cab unavailable, and append the new group to the cell's
candidate list. -/
def processRide (active_requests available_cabs : ℕ) (cell : ℕ)
    (r : Ride) (s : CellState) : CellState :=
  match scanGroups distKm tolerance s.cabs r s.entries with
  | some (entries', gid, pos) =>
    { s with
        entries := entries',
        rides := updateRide s.rides r.id
          (matchRide gid
            (calculate_price distKm base_fare rate_per_km
              r.pickup r.dropoff (pos : ℤ) (active_requests : ℤ)
              ((max available_cabs 1 : ℕ) : ℤ))),
        matched := s.matched + 1 }
  | none =>
    let cab := (s.cabs.filter (fun c => c.is_available)).head?
    let gid := s.nextGroupId
    let newGroup : RideGroupModel :=
      { id := gid, cab_id := cab.map (fun c => c.id),
        seats_occupied := r.seats_requested,
        luggage_occupied := r.luggage_count,
        status := .ACTIVE, h3_cell := cell }
    { entries := s.entries ++ [(newGroup, ([r.pickup], [r.dropoff]))],
      cabs :=
        match cab with
        | some cb =>
          s.cabs.map fun c =>
            if c.id = cb.id then { c with is_available := false } else c
        | none => s.cabs,
      rides := updateRide s.rides r.id
        (matchRide gid
          (calculate_price distKm base_fare rate_per_km
            r.pickup r.dropoff 1 (active_requests : ℤ)
            ((max available_cabs 1 : ℕ) : ℤ))),
      nextGroupId := s.nextGroupId + 1,
      matched := s.matched + 1 }

/-- `get_rides_in_group` projected to the `gdata` pickup/dropoff lists. -/
def gdataOf (rides : List Ride) (gid : ℕ) : GData :=
  let l := rides.filter fun x => decide (x.ride_group_id = some gid)
  (l.map (fun x => x.pickup), l.map (fun x => x.dropoff))

/-- Membership test for `get_active_groups_for_update(h3_cell=cell)`. -/
def inCell (cell : ℕ) (g : RideGroupModel) : Bool :=
  decide (g.status = .ACTIVE) && decide (g.h3_cell = cell)

/-- One `for cell, rides_in_cell in cell_rides.items()` iteration: load
the cell's ACTIVE groups with their join history, fold the cell's rides
through `processRide`, then write the updated and the newly created
groups back to the session's group table. -/
def processCell (active_requests available_cabs : ℕ) (cell : ℕ)
    (rides_in_cell : List Ride) (st : Store) (m : ℕ) : Store × ℕ :=
  let sel := st.groups.filter (inCell cell)
  let entries := sel.map fun g => (g, gdataOf st.rides g.id)
  let s0 : CellState :=
    ⟨entries, st.cabs, st.rides, st.nextGroupId, m⟩
  let s1 := rides_in_cell.foldl
    (fun s r =>
      processRide distKm base_fare rate_per_km tolerance
        active_requests available_cabs cell r s) s0
  (⟨s1.rides,
    st.groups.filter (fun g => !inCell cell g) ++ s1.entries.map Prod.fst,
    s1.cabs, s1.nextGroupId⟩, s1.matched)

/-- First-occurrence deduplication, matching the iteration order of the
`defaultdict` `cell_rides` (Python dicts iterate in insertion order). -/
def dedupFirst : List ℕ → List ℕ
  | [] => []
  | x :: xs => x :: dedupFirst (xs.filter (fun y => y ≠ x))
termination_by l => l.length
decreasing_by
  simp only [List.length_cons]
  exact Nat.lt_succ_of_le (List.length_filter_le _ _)

/-- The session computation of `run_matching_cycle` (everything inside
`async with async_session_factory() as session:` up to the commit):
fetch the pending rides, snapshot `active_requests` and
`available_cabs` once, bin the rides by H3 cell of their pickup, and
run the greedy grouping per cell.  Returns the mutated session state and
the number of rides matched. -/
def run_grouping (st : Store) : Store × ℕ :=
  let pending := st.rides.filter fun r => decide (r.status = .PENDING)
  if pending.isEmpty then (st, 0)
  else
    let active_requests := pending.length
    let available_cabs := (st.cabs.filter (fun c => c.is_available)).length
    let cells := dedupFirst (pending.map fun r => cellOf r.pickup)
    cells.foldl
      (fun p cell =>
        processCell distKm base_fare rate_per_km tolerance
          active_requests available_cabs cell
          (pending.filter fun r => decide (cellOf r.pickup = cell)) p.1 p.2)
      (st, 0)

/-- `run_matching_cycle` with its lock protocol and `try/except/finally`:
`lockStore` is the Redis state of the `lock:matching_engine` key and
`token` this worker's UUID.  The session buffers every mutation and
applies them to the store only at `session.commit()` (the SQLAlchemy
session contract: leaving the `async with` block without a commit rolls
the transaction back), so an exception anywhere in the `try` block —
modelled by `commitOk = false` — leaves the store unchanged; the
`finally` clause releases the lock on both paths.  Returns the store,
the lock key state, and the cycle's return value `matched`. -/
def run_matching_cycle (lockStore : Option String) (token : String)
    (commitOk : Bool) (st : Store) : Store × Option String × ℕ :=
  match lock_acquire lockStore token with
  | (l, false) => (st, l, 0)
  | (l, true) =>
    let r := run_grouping distKm cellOf base_fare rate_per_km tolerance st
    if commitOk then (r.1, lock_release l token, r.2)
    else (st, lock_release l token, r.2)

end Matcher

/-! ## Concrete fixtures used by witnesses and counterexamples -/

/-- A concrete stand-in for the abstract distance oracle: taxicab
distance on rational coordinates. -/
def taxicab : Point → Point → ℚ :=
  fun p q => max (p.1 - q.1) (q.1 - p.1) + max (p.2 - q.2) (q.2 - p.2)

/-- A concrete stand-in for the abstract H3 indexer: one single cell. -/
def oneCell : Point → ℕ := fun _ => 7

/-- A ride already in the terminal CANCELLED state. -/
def cancelledRide : Ride :=
  { id := 9, pickup := (0, 0), dropoff := (1, 1),
    status := RideStatus.CANCELLED,
    seats_requested := 1, luggage_count := 0,
    ride_group_id := none, price := none }

/-- A matched ride's observable outcome: status MATCHED with a price and
a group reference set. -/
def RideDone (x : Ride) : Prop :=
  x.status = RideStatus.MATCHED ∧ x.price.isSome = true ∧
    x.ride_group_id.isSome = true

/-- Every stored ride with primary key `i` has been matched. -/
def MatchedDone (rides : List Ride) (i : ℕ) : Prop :=
  ∀ x ∈ rides, x.id = i → RideDone x

/-- A ride's price is either untouched (equal to some initial ride's
price) or was computed this cycle from the start-of-cycle snapshots
`a = activeRequests` and `c = availableCabs` (the code passes
`max(available_cabs, 1)` to the engine). -/
def SnapPriced (distKm : Point → Point → ℚ) (base_fare rate_per_km : ℚ)
    (a c : ℕ) (orig : List Ride) (x : Ride) : Prop :=
  (∃ x0 ∈ orig, x.price = x0.price) ∨
  ∃ (u v : Point) (pos : ℤ), 1 ≤ pos ∧
    x.price = some (calculate_price distKm base_fare rate_per_km u v pos
      (a : ℤ) ((max c 1 : ℕ) : ℤ))

/-- A pending ride in a cell with no available cab and no group. -/
def loneRide : Ride :=
  { id := 1, pickup := (0, 0), dropoff := (5, 5),
    status := RideStatus.PENDING,
    seats_requested := 2, luggage_count := 1,
    ride_group_id := none, price := none }

/-- A store with one pending ride, no groups and no cabs. -/
def noCabStore : Store :=
  { rides := [loneRide], groups := [], cabs := [], nextGroupId := 1 }

/-- `loneRide` after the cycle: matched into the new cab-less group. -/
def loneRideMatched : Ride :=
  { id := 1, pickup := (0, 0), dropoff := (5, 5),
    status := RideStatus.MATCHED,
    seats_requested := 2, luggage_count := 1,
    ride_group_id := some 1, price := some 200 }

/-- A pending ride used by the cycle-guarantee witness. -/
def wRide : Ride :=
  { id := 21, pickup := (0, 0), dropoff := (3, 0),
    status := RideStatus.PENDING,
    seats_requested := 1, luggage_count := 0,
    ride_group_id := none, price := none }

/-- An available cab for the cycle-guarantee witness. -/
def wCab : Cab :=
  { id := 31, max_seats := 4, max_luggage := 3, is_available := true }

/-- Store for the cycle-guarantee witness. -/
def wStore : Store :=
  { rides := [wRide], groups := [], cabs := [wCab], nextGroupId := 1 }

/-- A pending ride with a degenerate (pickup = dropoff) route, so the
detour check passes by the 0.1 km exemption. -/
def jRide : Ride :=
  { id := 41, pickup := (0, 0), dropoff := (0, 0),
    status := RideStatus.PENDING,
    seats_requested := 1, luggage_count := 0,
    ride_group_id := none, price := none }

/-- A cab-less candidate group at full default seat capacity. -/
def fullEntry : RideGroupModel × GData :=
  ({ id := 51, cab_id := none, seats_occupied := 4, luggage_occupied := 0,
     status := GroupStatus.ACTIVE, h3_cell := 7 }, ([], []))

/-- A cab-less candidate group with room. -/
def openEntry : RideGroupModel × GData :=
  ({ id := 52, cab_id := none, seats_occupied := 0, luggage_occupied := 0,
     status := GroupStatus.ACTIVE, h3_cell := 7 }, ([], []))

/-- Cell working state for the first-fit witness: a full group first,
an open group second. -/
def jCellState : CellState :=
  { entries := [fullEntry, openEntry], cabs := [], rides := [jRide],
    nextGroupId := 60, matched := 0 }

/-! ## Pricing claims -/

/-- C5: `price(distanceKm, baseFare, ratePerKm, passengerPosition, surge)`
equals `round((baseFare + distanceKm*ratePerKm) * surge * (1 - discount), 2)`
where the discount is 0% for position 1, 20% for position 2 and 30% for
every position 3 or greater; the worked examples give 200.0, 160.0,
140.0, and position 5 prices like position 3. -/
theorem pool_price_formula (d base rate surge : ℚ) (pos : ℤ)
    (hpos : 1 ≤ pos) :
    poolCalculate d base rate pos surge =
      round2 ((base + d * rate) * surge *
        (1 - if pos = 1 then 0 else if pos = 2 then 1/5 else 3/10)) ∧
    poolCalculate 10 50 15 1 1 = 200 ∧
    poolCalculate 10 50 15 2 1 = 160 ∧
    poolCalculate 10 50 15 3 1 = 140 ∧
    poolCalculate 10 50 15 5 1 = poolCalculate 10 50 15 3 1 := by
  refine ⟨?_,
    by norm_num [poolCalculate, round2, discountFor, round_eq],
    by norm_num [poolCalculate, round2, discountFor, round_eq],
    by norm_num [poolCalculate, round2, discountFor, round_eq],
    by norm_num [poolCalculate, round2, discountFor, round_eq]⟩
  have hd : discountFor pos =
      if pos = 1 then 0 else if pos = 2 then 1/5 else 3/10 := by
    unfold discountFor
    by_cases h1 : pos = 1
    · subst h1; norm_num
    · by_cases h2 : pos = 2
      · subst h2; norm_num
      · have h3 : min pos 3 = 3 := by omega
        simp only [h3, h1, h2, if_false]
        norm_num
  rw [poolCalculate, hd]

/-- C5 witness: the formula instantiated at position 2 with surge 1. -/
theorem pool_price_formula_witness :
    (1 : ℤ) ≤ 2 ∧
    (poolCalculate 10 50 15 2 1 =
      round2 ((50 + 10 * 15) * 1 *
        (1 - if (2 : ℤ) = 1 then 0 else if (2 : ℤ) = 2 then 1/5 else 3/10)) ∧
    poolCalculate 10 50 15 1 1 = 200 ∧
    poolCalculate 10 50 15 2 1 = 160 ∧
    poolCalculate 10 50 15 3 1 = 140 ∧
    poolCalculate 10 50 15 5 1 = poolCalculate 10 50 15 3 1) :=
  ⟨by norm_num, pool_price_formula 10 50 15 1 2 (by norm_num)⟩

/-- C6: surge is the demand/supply ratio clamped to `[1, 3]` when cabs
are available and exactly 3 when `availableCabs ≤ 0`, with the four
worked examples. -/
theorem surge_clamp_spec (a c : ℤ) :
    (0 < c → compute_surge a c = max 1 (min 3 ((a : ℚ) / (c : ℚ)))) ∧
    (c ≤ 0 → compute_surge a c = 3) ∧
    compute_surge 10 10 = 1 ∧
    compute_surge 30 10 = 3 ∧
    compute_surge 10 0 = 3 ∧
    compute_surge 5 10 = 1 := by
  refine ⟨?_, ?_,
    by norm_num [compute_surge],
    by norm_num [compute_surge],
    by norm_num [compute_surge],
    by norm_num [compute_surge]⟩
  · intro h
    rw [compute_surge, if_neg (by omega), max_min_distrib_left]
    norm_num
  · intro h
    rw [compute_surge, if_pos h]

/-- C6 witness: the clamp shape instantiated at `surge(10, 10)`. -/
theorem surge_clamp_spec_witness :
    (0 : ℤ) < 10 ∧
    compute_surge 10 10 = max 1 (min 3 (((10 : ℤ) : ℚ) / ((10 : ℤ) : ℚ))) :=
  ⟨by norm_num, (surge_clamp_spec 10 10).1 (by norm_num)⟩

/-! ## Detour claim -/

lemma zip_getD_eq (l1 l2 : List Point) :
    ∀ k, k < (l1.zip l2).length →
      (l1.zip l2).getD k ((0, 0), (0, 0)) =
        (l1.getD k (0, 0), l2.getD k (0, 0)) := by
  induction l1 generalizing l2 with
  | nil => intro k hk; simp at hk
  | cons a l1 ih =>
    intro k hk
    cases l2 with
    | nil => simp at hk
    | cons b l2 =>
      cases k with
      | zero => simp [List.zip_cons_cons]
      | succ k =>
        simp only [List.zip_cons_cons, List.getD_cons_succ]
        exact ih l2 k (by simpa [List.zip_cons_cons] using hk)

lemma foldl_add_map (f : ℕ → ℚ) :
    ∀ (l : List ℕ) (a : ℚ),
      l.foldl (fun acc j => acc + f j) a = a + (l.map f).sum := by
  intro l
  induction l with
  | nil => intro a; simp
  | cons x l ih =>
    intro a
    simp only [List.foldl_cons, List.map_cons, List.sum_cons, ih, add_assoc]

lemma detourScan_iff (distKm : Point → Point → ℚ) (ap ad : List Point)
    (tol : ℚ) :
    ∀ (l : List (Point × Point)) (i : ℕ),
      (∀ k, k < l.length →
        l.getD k ((0, 0), (0, 0)) =
          (ap.getD (i + k) (0, 0), ad.getD (i + k) (0, 0))) →
      (detourScan distKm ap ad tol i l = true ↔
        ∀ k, k < l.length → passengerOk distKm ap ad tol (i + k)) := by
  intro l
  induction l with
  | nil => intro i _; simp [detourScan]
  | cons pd rest ih =>
    intro i h
    obtain ⟨p, d⟩ := pd
    have h0 := h 0 (Nat.succ_pos _)
    rw [List.getD_cons_zero] at h0
    have hp : p = ap.getD i (0, 0) := by
      have := congrArg Prod.fst h0; simpa using this
    have hd : d = ad.getD i (0, 0) := by
      have := congrArg Prod.snd h0; simpa using this
    have hrest : ∀ k, k < rest.length →
        rest.getD k ((0, 0), (0, 0)) =
          (ap.getD (i + 1 + k) (0, 0), ad.getD (i + 1 + k) (0, 0)) := by
      intro k hk
      have := h (k + 1) (by simpa using Nat.succ_lt_succ hk)
      rw [List.getD_cons_succ] at this
      rw [this]
      congr 2 <;> omega
    have hsplit : (∀ k, k < rest.length + 1 →
        passengerOk distKm ap ad tol (i + k)) ↔
        passengerOk distKm ap ad tol i ∧
          ∀ k, k < rest.length → passengerOk distKm ap ad tol (i + 1 + k) := by
      constructor
      · intro hall
        refine ⟨by simpa using hall 0 (Nat.succ_pos _), fun k hk => ?_⟩
        have := hall (k + 1) (by omega)
        rwa [show i + (k + 1) = i + 1 + k by omega] at this
      · rintro ⟨h1, h2⟩ k hk
        cases k with
        | zero => simpa using h1
        | succ k =>
          have := h2 k (by omega)
          rwa [show i + 1 + k = i + (k + 1) by omega] at this
    simp only [detourScan, List.length_cons]
    by_cases hlt : distKm p d < 1/10
    · rw [if_pos hlt, ih (i + 1) hrest, hsplit]
      have hok : passengerOk distKm ap ad tol i := by
        left; rw [← hp, ← hd]; exact hlt
      exact ⟨fun h2 => ⟨hok, h2⟩, fun h2 => h2.2⟩
    · rw [if_neg hlt]
      by_cases hbad : (1 + tol) * distKm p d < shared_leg distKm ap ad i
      · rw [if_pos hbad]
        constructor
        · intro hfalse; exact absurd hfalse (by simp)
        · intro hall
          exfalso
          have := hall 0 (Nat.succ_pos _)
          rw [Nat.add_zero] at this
          rcases this with hsm | hle
          · rw [← hp, ← hd] at hsm; exact hlt hsm
          · rw [← hp, ← hd] at hle; linarith
      · rw [if_neg hbad, ih (i + 1) hrest, hsplit]
        have hok : passengerOk distKm ap ad tol i := by
          right; rw [← hp, ← hd]; linarith [not_lt.mp hbad]
        exact ⟨fun h2 => ⟨hok, h2⟩, fun h2 => h2.2⟩

/-- C3: `detour_ok` returns true iff every passenger, including the
candidate appended last, is either exempt (direct distance below
0.1 km) or has its shared leg within `(1 + tolerance)` times its direct
distance; and the shared leg of passenger `i` is the sum of the
consecutive hop distances from stop index `i` to stop index `n + i` of
the concatenated pickups-then-dropoffs stop list. -/
theorem detour_ok_iff_every_passenger (distKm : Point → Point → ℚ)
    (ep ed : List Point) (np nd : Point) (tol : ℚ)
    (hlen : ep.length = ed.length) :
    (detour_ok distKm ep ed np nd tol = true ↔
      ∀ i, i < ep.length + 1 →
        passengerOk distKm (ep ++ [np]) (ed ++ [nd]) tol i) ∧
    ∀ (ps ds : List Point) (i : ℕ),
      shared_leg distKm ps ds i =
        ((List.range ps.length).map fun j =>
          distKm ((ps ++ ds).getD (i + j) (0, 0))
            ((ps ++ ds).getD (i + j + 1) (0, 0))).sum := by
  constructor
  · have hzlen : ((ep ++ [np]).zip (ed ++ [nd])).length = ep.length + 1 := by
      simp [List.length_zip, hlen]
    have := detourScan_iff distKm (ep ++ [np]) (ed ++ [nd]) tol
      ((ep ++ [np]).zip (ed ++ [nd])) 0
      (by
        intro k hk
        have := zip_getD_eq (ep ++ [np]) (ed ++ [nd]) k hk
        simpa using this)
    rw [detour_ok]
    rw [this]
    constructor
    · intro hall i hi
      have := hall i (by omega)
      simpa using this
    · intro hall k hk
      rw [hzlen] at hk
      simpa using hall k hk
  · intro ps ds i
    rw [shared_leg, foldl_add_map, zero_add, List.range'_eq_map_range,
      List.map_map]
    rfl

/-- C3 witness: the characterisation at one existing passenger plus the
candidate. -/
theorem detour_ok_iff_every_passenger_witness :
    ([((0 : ℚ), (0 : ℚ))].length = [((0 : ℚ), (1 : ℚ))].length) ∧
    ((detour_ok taxicab [(0, 0)] [(0, 1)] (1, 0) (1, 1) (2/5) = true ↔
      ∀ i, i < [((0 : ℚ), (0 : ℚ))].length + 1 →
        passengerOk taxicab ([(0, 0)] ++ [(1, 0)]) ([(0, 1)] ++ [(1, 1)])
          (2/5) i) ∧
    ∀ (ps ds : List Point) (i : ℕ),
      shared_leg taxicab ps ds i =
        ((List.range ps.length).map fun j =>
          taxicab ((ps ++ ds).getD (i + j) (0, 0))
            ((ps ++ ds).getD (i + j + 1) (0, 0))).sum) :=
  ⟨rfl, detour_ok_iff_every_passenger taxicab [(0, 0)] [(0, 1)]
    (1, 0) (1, 1) (2/5) rfl⟩

/-! ## State-machine claim -/

/-- C7: `transition_to` succeeds (setting exactly the target status)
precisely when the target is in the allowed set of the current status
per the transition table, errors otherwise, and the terminal states
COMPLETED and CANCELLED reject every transition. -/
theorem ride_transition_spec (r : Ride) (t : RideStatus) :
    (transition_to r t = .ok { r with status := t } ↔
      t ∈ RIDE_TRANSITIONS r.status) ∧
    (transition_to r t = .error () ↔ t ∉ RIDE_TRANSITIONS r.status) ∧
    RIDE_TRANSITIONS .PENDING = [.MATCHED, .CANCELLED] ∧
    RIDE_TRANSITIONS .MATCHED = [.ON_TRIP, .CANCELLED] ∧
    RIDE_TRANSITIONS .ON_TRIP = [.COMPLETED] ∧
    RIDE_TRANSITIONS .COMPLETED = [] ∧
    RIDE_TRANSITIONS .CANCELLED = [] ∧
    (r.status = .COMPLETED ∨ r.status = .CANCELLED →
      transition_to r t = .error ()) := by
  refine ⟨?_, ?_, rfl, rfl, rfl, rfl, rfl, ?_⟩
  · by_cases h : t ∈ RIDE_TRANSITIONS r.status <;> simp [transition_to, h]
  · by_cases h : t ∈ RIDE_TRANSITIONS r.status <;> simp [transition_to, h]
  · intro hterm
    have hempty : RIDE_TRANSITIONS r.status = [] := by
      rcases hterm with h | h <;> rw [h] <;> rfl
    simp [transition_to, hempty]

/-- C7 witness: a CANCELLED ride rejects re-entry into CANCELLED. -/
theorem ride_transition_spec_witness :
    (cancelledRide.status = .COMPLETED ∨ cancelledRide.status = .CANCELLED) ∧
    transition_to cancelledRide .CANCELLED = .error () :=
  ⟨Or.inr rfl,
    (ride_transition_spec cancelledRide .CANCELLED).2.2.2.2.2.2.2
      (Or.inr rfl)⟩

/-! ## Distributed-lock claim -/

/-- C8: `acquire` wins ownership exactly when no token is stored (a
second acquire while the first holder's token is stored fails), and
`release` removes the stored token only when it is this holder's,
leaving a foreign token untouched. -/
theorem lock_token_protocol (t tok : String) (hne : t ≠ tok) :
    lock_acquire none tok = (some tok, true) ∧
    lock_acquire (some t) tok = (some t, false) ∧
    (∀ st : Option String, (lock_acquire st tok).2 = true ↔ st = none) ∧
    lock_release (some tok) tok = none ∧
    lock_release (some t) tok = some t ∧
    lock_release none tok = none := by
  refine ⟨rfl, rfl, ?_, ?_, ?_, rfl⟩
  · intro st; cases st <;> simp [lock_acquire]
  · simp [lock_release]
  · simp [lock_release, hne]

/-- C8 witness: the protocol at a foreign token "other" vs holder token
"holder". -/
theorem lock_token_protocol_witness :
    "other" ≠ "holder" ∧
    (lock_acquire none "holder" = (some "holder", true) ∧
    lock_acquire (some "other") "holder" = (some "other", false) ∧
    (∀ st : Option String,
      (lock_acquire st "holder").2 = true ↔ st = none) ∧
    lock_release (some "holder") "holder" = none ∧
    lock_release (some "other") "holder" = some "other" ∧
    lock_release none "holder" = none) :=
  ⟨by decide, lock_token_protocol "other" "holder" (by decide)⟩

/-! ## Discount fall-through claim -/

/-- C10: a non-positive passenger position falls through the
`{1, 2, 3}` discount dictionary to the 30% default (not the 0%
first-passenger discount), so `calculate_price` prices it like
position 3. -/
theorem discount_fallthrough_nonpositive (pos : ℤ) (hpos : pos ≤ 0) :
    discountFor pos = 3/10 ∧
    discountFor pos ≠ discountFor 1 ∧
    ∀ (distKm : Point → Point → ℚ) (bf rk : ℚ) (p q : Point) (a c : ℤ),
      calculate_price distKm bf rk p q pos a c =
        calculate_price distKm bf rk p q 3 a c := by
  have hd : discountFor pos = 3/10 := by
    unfold discountFor
    have hmin : min pos 3 = pos := by omega
    simp only [hmin]
    rw [if_neg (by omega), if_neg (by omega), if_neg (by omega)]
  refine ⟨hd, ?_, ?_⟩
  · rw [hd]; norm_num [discountFor]
  · intro distKm bf rk p q a c
    unfold calculate_price poolCalculate
    rw [hd]
    norm_num [discountFor]

/-- C10 witness: position 0 is priced with the 30% fallback. -/
theorem discount_fallthrough_nonpositive_witness :
    (0 : ℤ) ≤ 0 ∧
    (discountFor 0 = 3/10 ∧
    discountFor 0 ≠ discountFor 1 ∧
    ∀ (distKm : Point → Point → ℚ) (bf rk : ℚ) (p q : Point) (a c : ℤ),
      calculate_price distKm bf rk p q 0 a c =
        calculate_price distKm bf rk p q 3 a c) :=
  ⟨le_refl 0, discount_fallthrough_nonpositive 0 (le_refl 0)⟩

/-! ## Matcher claims -/

section MatcherProofs

variable (distKm : Point → Point → ℚ) (cellOf : Point → ℕ)
variable (base_fare rate_per_km tolerance : ℚ)

lemma scanGroups_none (cabs : List Cab) (r : Ride) :
    ∀ l, (∀ e ∈ l, accepts distKm tolerance cabs e r = false) →
      scanGroups distKm tolerance cabs r l = none := by
  intro l h
  induction l with
  | nil => rfl
  | cons e rest ih =>
    have he := h e (List.mem_cons_self e rest)
    have hr := ih fun e' he' => h e' (List.mem_cons_of_mem e he')
    simp [scanGroups, he, hr]

lemma scanGroups_first (cabs : List Cab) (r : Ride)
    (e : RideGroupModel × GData) (post : List (RideGroupModel × GData))
    (hacc : accepts distKm tolerance cabs e r = true) :
    ∀ pre, (∀ e' ∈ pre, accepts distKm tolerance cabs e' r = false) →
      scanGroups distKm tolerance cabs r (pre ++ e :: post) =
        some (pre ++ joinEntry r e :: post, e.1.id, e.2.1.length + 1) := by
  intro pre
  induction pre with
  | nil => intro _; simp [scanGroups, hacc]
  | cons a pre ih =>
    intro h
    have ha := h a (List.mem_cons_self a pre)
    have hr := ih fun e' he' => h e' (List.mem_cons_of_mem a he')
    simp [scanGroups, ha, hr]

lemma scanGroups_pos (cabs : List Cab) (r : Ride) :
    ∀ (l : List (RideGroupModel × GData)) res,
      scanGroups distKm tolerance cabs r l = some res → 1 ≤ res.2.2 := by
  intro l
  induction l with
  | nil => intro res h; exact absurd h (by simp [scanGroups])
  | cons e rest ih =>
    intro res h
    rw [scanGroups] at h
    by_cases hacc : accepts distKm tolerance cabs e r = true
    · rw [if_pos hacc] at h
      obtain rfl : (joinEntry r e :: rest, e.1.id, e.2.1.length + 1) = res :=
        Option.some.inj h
      exact Nat.le_add_left 1 _
    · rw [if_neg hacc] at h
      cases hs : scanGroups distKm tolerance cabs r rest with
      | none => rw [hs] at h; exact absurd h (by simp)
      | some res' =>
        rw [hs] at h
        obtain ⟨l', gid', pos'⟩ := res'
        obtain rfl : (e :: l', gid', pos') = res := Option.some.inj h
        exact ih (l', gid', pos') hs

/-- Whatever branch `processRide` takes, its effect on the ride table is
to match ride `r` with some group id and a price computed from `r`'s own
endpoints, a position of at least 1, and the snapshot demand/supply
counts it was handed. -/
lemma processRide_rides_eq (a c cell : ℕ) (r : Ride) (s : CellState) :
    ∃ (gid : ℕ) (pos : ℤ), 1 ≤ pos ∧
      (processRide distKm base_fare rate_per_km tolerance
          a c cell r s).rides =
        updateRide s.rides r.id
          (matchRide gid (calculate_price distKm base_fare rate_per_km
            r.pickup r.dropoff pos (a : ℤ) ((max c 1 : ℕ) : ℤ))) := by
  unfold processRide
  cases hscan : scanGroups distKm tolerance s.cabs r s.entries with
  | none => exact ⟨s.nextGroupId, 1, le_refl 1, rfl⟩
  | some res =>
    obtain ⟨l, gid, pos⟩ := res
    have hpos := scanGroups_pos distKm tolerance s.cabs r s.entries
      (l, gid, pos) hscan
    exact ⟨gid, (pos : ℤ), by exact_mod_cast hpos, rfl⟩

/-- C2: within a cell the scan is first-fit — the ride joins the first
group passing the capacity and detour checks, with all earlier groups
having failed, its price computed at `passengerPosition` = the group's
new size; when every group rejects, a new ACTIVE group is created
around the head of the available-cab list, priced at position 1, and
appended to the cell's candidate list. -/
theorem first_fit_join_spec (a c cell : ℕ) (r : Ride) (s : CellState) :
    (∀ pre e post,
      s.entries = pre ++ e :: post →
      (∀ e' ∈ pre, accepts distKm tolerance s.cabs e' r = false) →
      accepts distKm tolerance s.cabs e r = true →
      processRide distKm base_fare rate_per_km tolerance a c cell r s =
        { s with
            entries := pre ++ joinEntry r e :: post,
            rides := updateRide s.rides r.id
              (matchRide e.1.id (calculate_price distKm base_fare
                rate_per_km r.pickup r.dropoff
                ((e.2.1.length + 1 : ℕ) : ℤ) (a : ℤ)
                ((max c 1 : ℕ) : ℤ))),
            matched := s.matched + 1 }) ∧
    ((∀ e ∈ s.entries, accepts distKm tolerance s.cabs e r = false) →
      ∃ newG : RideGroupModel,
        newG.id = s.nextGroupId ∧
        newG.h3_cell = cell ∧
        newG.status = .ACTIVE ∧
        newG.seats_occupied = r.seats_requested ∧
        newG.luggage_occupied = r.luggage_count ∧
        newG.cab_id =
          ((s.cabs.filter fun cb => cb.is_available).head?).map Cab.id ∧
        (processRide distKm base_fare rate_per_km tolerance
            a c cell r s).entries =
          s.entries ++ [(newG, ([r.pickup], [r.dropoff]))] ∧
        (processRide distKm base_fare rate_per_km tolerance
            a c cell r s).rides =
          updateRide s.rides r.id
            (matchRide s.nextGroupId (calculate_price distKm base_fare
              rate_per_km r.pickup r.dropoff 1 (a : ℤ)
              ((max c 1 : ℕ) : ℤ)))) := by
  constructor
  · intro pre e post hent hpre hacc
    have hscan := scanGroups_first distKm tolerance s.cabs r e post hacc
      pre hpre
    rw [← hent] at hscan
    unfold processRide
    rw [hscan]
  · intro hall
    have hscan := scanGroups_none distKm tolerance s.cabs r s.entries hall
    refine ⟨{ id := s.nextGroupId,
              cab_id :=
                ((s.cabs.filter fun cb => cb.is_available).head?).map
                  (fun cb => cb.id),
              seats_occupied := r.seats_requested,
              luggage_occupied := r.luggage_count,
              status := .ACTIVE, h3_cell := cell },
            rfl, rfl, rfl, rfl, rfl, rfl, ?_, ?_⟩ <;>
      (unfold processRide; rw [hscan])

lemma updateRide_map_id (rides : List Ride) (i gid : ℕ) (p : ℚ) :
    (updateRide rides i (matchRide gid p)).map Ride.id =
      rides.map Ride.id := by
  unfold updateRide
  rw [List.map_map]
  apply List.map_congr_left
  intro x _
  by_cases h : x.id = i <;> simp [h, matchRide]

lemma updateRide_done (rides : List Ride) (i gid : ℕ) (p : ℚ) :
    MatchedDone (updateRide rides i (matchRide gid p)) i ∧
    ∀ j, MatchedDone rides j →
      MatchedDone (updateRide rides i (matchRide gid p)) j := by
  constructor
  · intro x hx hxi
    rw [updateRide, List.mem_map] at hx
    obtain ⟨y, hy, rfl⟩ := hx
    by_cases h : y.id = i
    · simp [h, matchRide, RideDone]
    · simp only [if_neg h] at hxi
      exact absurd hxi h
  · intro j hM x hx hxj
    rw [updateRide, List.mem_map] at hx
    obtain ⟨y, hy, rfl⟩ := hx
    by_cases h : y.id = i
    · simp [h, matchRide, RideDone]
    · simp only [if_neg h] at hxj ⊢
      exact hM y hy hxj

lemma processRide_done (a c cell : ℕ) (r : Ride) (s : CellState) :
    MatchedDone (processRide distKm base_fare rate_per_km tolerance
      a c cell r s).rides r.id ∧
    (∀ j, MatchedDone s.rides j →
      MatchedDone (processRide distKm base_fare rate_per_km tolerance
        a c cell r s).rides j) ∧
    (processRide distKm base_fare rate_per_km tolerance
      a c cell r s).rides.map Ride.id = s.rides.map Ride.id := by
  obtain ⟨gid, pos, _, heq⟩ :=
    processRide_rides_eq distKm base_fare rate_per_km tolerance
      a c cell r s
  rw [heq]
  exact ⟨(updateRide_done _ _ _ _).1,
    fun j => (updateRide_done _ _ _ _).2 j, updateRide_map_id _ _ _ _⟩

lemma foldRides_done (a c cell : ℕ) :
    ∀ (rs : List Ride) (s : CellState),
      (∀ r ∈ rs,
        MatchedDone (rs.foldl (fun s r =>
          processRide distKm base_fare rate_per_km tolerance
            a c cell r s) s).rides r.id) ∧
      (∀ j, MatchedDone s.rides j →
        MatchedDone (rs.foldl (fun s r =>
          processRide distKm base_fare rate_per_km tolerance
            a c cell r s) s).rides j) ∧
      (rs.foldl (fun s r =>
        processRide distKm base_fare rate_per_km tolerance
          a c cell r s) s).rides.map Ride.id = s.rides.map Ride.id := by
  intro rs
  induction rs with
  | nil =>
    intro s
    exact ⟨fun r hr => absurd hr (List.not_mem_nil r),
      fun j h => h, rfl⟩
  | cons r rs ih =>
    intro s
    rw [List.foldl_cons]
    refine ⟨?_, ?_, ?_⟩
    · intro r' hr'
      rcases List.mem_cons.mp hr' with rfl | hmem
      · exact (ih _).2.1 r'.id
          (processRide_done distKm base_fare rate_per_km tolerance
            a c cell r' s).1
      · exact (ih _).1 r' hmem
    · intro j hj
      exact (ih _).2.1 j
        ((processRide_done distKm base_fare rate_per_km tolerance
          a c cell r s).2.1 j hj)
    · rw [(ih _).2.2]
      exact (processRide_done distKm base_fare rate_per_km tolerance
        a c cell r s).2.2

lemma processCell_done (a c cell : ℕ) (rs : List Ride) (st : Store)
    (m : ℕ) :
    (∀ r ∈ rs,
      MatchedDone (processCell distKm base_fare rate_per_km tolerance
        a c cell rs st m).1.rides r.id) ∧
    (∀ j, MatchedDone st.rides j →
      MatchedDone (processCell distKm base_fare rate_per_km tolerance
        a c cell rs st m).1.rides j) ∧
    (processCell distKm base_fare rate_per_km tolerance
      a c cell rs st m).1.rides.map Ride.id = st.rides.map Ride.id := by
  exact foldRides_done distKm base_fare rate_per_km tolerance a c cell rs
    ⟨(st.groups.filter (inCell cell)).map
        (fun g => (g, gdataOf st.rides g.id)),
      st.cabs, st.rides, st.nextGroupId, m⟩

lemma mem_dedupFirst : ∀ (l : List ℕ) (a : ℕ),
    a ∈ dedupFirst l ↔ a ∈ l := by
  have key : ∀ (n : ℕ) (l : List ℕ), l.length ≤ n →
      ∀ a, (a ∈ dedupFirst l ↔ a ∈ l) := by
    intro n
    induction n with
    | zero =>
      intro l hl a
      have : l = [] := List.length_eq_zero.mp (Nat.le_zero.mp hl)
      subst this
      simp [dedupFirst]
    | succ n ih =>
      intro l hl a
      cases l with
      | nil => simp [dedupFirst]
      | cons x xs =>
        rw [dedupFirst]
        simp only [List.mem_cons]
        have hxs : (xs.filter fun y => y ≠ x).length ≤ n :=
          le_trans (List.length_filter_le _ _)
            (by simpa using Nat.lt_succ_iff.mp (Nat.lt_of_lt_of_le
              (Nat.lt_succ_of_le (le_refl _)) hl))
        constructor
        · rintro (rfl | h)
          · exact Or.inl rfl
          · right
            exact List.mem_of_mem_filter ((ih _ hxs a).mp h)
        · rintro (rfl | h)
          · exact Or.inl rfl
          · by_cases hax : a = x
            · exact Or.inl hax
            · right
              exact (ih _ hxs a).mpr
                (List.mem_filter.mpr ⟨h, by simp [hax]⟩)
  exact fun l a => key l.length l (le_refl _) a

lemma foldCells_done (a c : ℕ) (pd : List Ride) :
    ∀ (cells : List ℕ) (p : Store × ℕ),
      (∀ j, MatchedDone p.1.rides j →
        MatchedDone (cells.foldl (fun p cl =>
          processCell distKm base_fare rate_per_km tolerance a c cl
            (pd.filter fun r => decide (cellOf r.pickup = cl))
            p.1 p.2) p).1.rides j) ∧
      (∀ r ∈ pd, ∀ cl ∈ cells, cellOf r.pickup = cl →
        MatchedDone (cells.foldl (fun p cl =>
          processCell distKm base_fare rate_per_km tolerance a c cl
            (pd.filter fun r => decide (cellOf r.pickup = cl))
            p.1 p.2) p).1.rides r.id) ∧
      (cells.foldl (fun p cl =>
        processCell distKm base_fare rate_per_km tolerance a c cl
          (pd.filter fun r => decide (cellOf r.pickup = cl))
          p.1 p.2) p).1.rides.map Ride.id = p.1.rides.map Ride.id := by
  intro cells
  induction cells with
  | nil =>
    intro p
    exact ⟨fun j h => h,
      fun r _ cl hcl => absurd hcl (List.not_mem_nil cl), rfl⟩
  | cons cl cells ih =>
    intro p
    rw [List.foldl_cons]
    refine ⟨?_, ?_, ?_⟩
    · intro j hj
      exact (ih _).1 j
        ((processCell_done distKm base_fare rate_per_km tolerance a c cl
          (pd.filter fun r => decide (cellOf r.pickup = cl))
          p.1 p.2).2.1 j hj)
    · intro r hr cl' hcl' hcell
      rcases List.mem_cons.mp hcl' with rfl | hmem
      · apply (ih _).1 r.id
        apply (processCell_done distKm base_fare rate_per_km tolerance
          a c cl' (pd.filter fun r => decide (cellOf r.pickup = cl'))
          p.1 p.2).1 r
        exact List.mem_filter.mpr ⟨hr, by simp [hcell]⟩
      · exact (ih _).2.1 r hr cl' hmem hcell
    · rw [(ih _).2.2]
      exact (processCell_done distKm base_fare rate_per_km tolerance a c
        cl (pd.filter fun r => decide (cellOf r.pickup = cl))
        p.1 p.2).2.2

/-- C1 (amended): every pending ride in the store ends the cycle
MATCHED, with a price and exactly one group reference set — the matcher
never leaves a processed pending ride PENDING, even in a cell with no
available cab and no compatible group. -/
theorem greedy_cycle_matches_all_pending (st : Store) (r : Ride)
    (hr : r ∈ st.rides) (hp : r.status = RideStatus.PENDING) :
    (∃ x ∈ (run_grouping distKm cellOf base_fare rate_per_km tolerance
        st).1.rides, x.id = r.id ∧ RideDone x) ∧
    (∀ x ∈ (run_grouping distKm cellOf base_fare rate_per_km tolerance
        st).1.rides, x.id = r.id → RideDone x) := by
  have hrp : r ∈ st.rides.filter
      (fun r => decide (r.status = RideStatus.PENDING)) :=
    List.mem_filter.mpr ⟨hr, by simp [hp]⟩
  have hne : (st.rides.filter
      (fun r => decide (r.status = RideStatus.PENDING))).isEmpty
        = false := by
    rcases hfe : st.rides.filter
        (fun r => decide (r.status = RideStatus.PENDING)) with _ | ⟨y, ys⟩
    · rw [hfe] at hrp; exact absurd hrp (List.not_mem_nil r)
    · rw [hfe]; rfl
  have hfold := foldCells_done distKm cellOf base_fare rate_per_km
    tolerance
    (st.rides.filter (fun r => decide (r.status = RideStatus.PENDING))).length
    ((st.cabs.filter (fun c => c.is_available)).length)
    (st.rides.filter (fun r => decide (r.status = RideStatus.PENDING)))
    (dedupFirst ((st.rides.filter
      (fun r => decide (r.status = RideStatus.PENDING))).map
        fun r => cellOf r.pickup))
    (st, 0)
  have hcl : cellOf r.pickup ∈ dedupFirst ((st.rides.filter
      (fun r => decide (r.status = RideStatus.PENDING))).map
        fun r => cellOf r.pickup) :=
    (mem_dedupFirst _ _).mpr (List.mem_map.mpr ⟨r, hrp, rfl⟩)
  have hdone := hfold.2.1 r hrp (cellOf r.pickup) hcl rfl
  have hids := hfold.2.2
  rw [run_grouping]
  simp only [hne, Bool.false_eq_true, if_false]
  refine ⟨?_, hdone⟩
  have hmem : r.id ∈ (st.rides.map Ride.id) :=
    List.mem_map.mpr ⟨r, hr, rfl⟩
  rw [show (st.rides.map Ride.id) = _ from hids.symm] at hmem
  obtain ⟨x, hx, hxid⟩ := List.mem_map.mp hmem
  exact ⟨x, hx, hxid, hdone x hx hxid⟩

/-- C1 witness: the guarantee at a one-ride, one-cab store. -/
theorem greedy_cycle_matches_all_pending_witness :
    wRide ∈ wStore.rides ∧ wRide.status = RideStatus.PENDING ∧
    ((∃ x ∈ (run_grouping taxicab oneCell 50 15 (2/5)
        wStore).1.rides, x.id = wRide.id ∧ RideDone x) ∧
    (∀ x ∈ (run_grouping taxicab oneCell 50 15 (2/5)
        wStore).1.rides, x.id = wRide.id → RideDone x)) :=
  ⟨List.mem_cons_self wRide [], rfl,
    greedy_cycle_matches_all_pending taxicab oneCell 50 15 (2/5) wStore
      wRide (List.mem_cons_self wRide []) rfl⟩

/-- C1 counterexample: with no available cab and no compatible group the
ride does not remain PENDING — the cycle matches it into a freshly
created cab-less group. -/
theorem no_cab_ride_matched_not_pending :
    noCabStore.groups = [] ∧
    noCabStore.cabs.filter (fun c => c.is_available) = [] ∧
    noCabStore.rides.map Ride.status = [RideStatus.PENDING] ∧
    (run_grouping taxicab oneCell 50 15 (2/5) noCabStore).1.rides.map
      Ride.status = [RideStatus.MATCHED] ∧
    ¬((run_grouping taxicab oneCell 50 15 (2/5) noCabStore).1.rides.map
      Ride.status = [RideStatus.PENDING]) := by
  have h4 : (run_grouping taxicab oneCell 50 15 (2/5) noCabStore).1.rides.map
      Ride.status = [RideStatus.MATCHED] := by
    simp [run_grouping, noCabStore, loneRide, processCell, processRide,
      scanGroups, dedupFirst, gdataOf, inCell, updateRide, matchRide,
      oneCell]
  refine ⟨rfl, rfl, rfl, h4, ?_⟩
  rw [h4]
  simp

/-- C2 witness: first-fit at a cell whose first candidate group is full
and whose second has room. -/
theorem first_fit_join_spec_witness :
    jCellState.entries = [fullEntry] ++ openEntry :: [] ∧
    (∀ e' ∈ [fullEntry],
      accepts taxicab (2/5) jCellState.cabs e' jRide = false) ∧
    accepts taxicab (2/5) jCellState.cabs openEntry jRide = true ∧
    processRide taxicab 50 15 (2/5) 3 2 7 jRide jCellState =
      { jCellState with
          entries := [fullEntry] ++ joinEntry jRide openEntry :: [],
          rides := updateRide jCellState.rides jRide.id
            (matchRide openEntry.1.id (calculate_price taxicab 50 15
              jRide.pickup jRide.dropoff
              ((openEntry.2.1.length + 1 : ℕ) : ℤ) ((3 : ℕ) : ℤ)
              ((max 2 1 : ℕ) : ℤ))),
          matched := jCellState.matched + 1 } := by
  have hpre : ∀ e' ∈ [fullEntry],
      accepts taxicab (2/5) jCellState.cabs e' jRide = false := by
    intro e' he'
    rcases List.mem_singleton.mp he' with rfl
    simp [accepts, fullEntry, jRide, jCellState]
  have hacc : accepts taxicab (2/5) jCellState.cabs openEntry jRide
      = true := by
    norm_num [accepts, openEntry, jRide, jCellState, detour_ok,
      detourScan, taxicab]
  exact ⟨rfl, hpre, hacc,
    (first_fit_join_spec taxicab 50 15 (2/5) 3 2 7 jRide jCellState).1
      [fullEntry] openEntry [] rfl hpre hacc⟩

lemma updateRide_snap (a c : ℕ) (orig rides : List Ride) (i gid : ℕ)
    (u v : Point) (pos : ℤ) (hpos : 1 ≤ pos)
    (hall : ∀ x ∈ rides,
      SnapPriced distKm base_fare rate_per_km a c orig x) :
    ∀ x ∈ updateRide rides i (matchRide gid
        (calculate_price distKm base_fare rate_per_km u v pos (a : ℤ)
          ((max c 1 : ℕ) : ℤ))),
      SnapPriced distKm base_fare rate_per_km a c orig x := by
  intro x hx
  rw [updateRide, List.mem_map] at hx
  obtain ⟨y, hy, rfl⟩ := hx
  by_cases h : y.id = i
  · refine Or.inr ⟨u, v, pos, hpos, ?_⟩
    simp [h, matchRide]
  · simp only [if_neg h]
    exact hall y hy

lemma processRide_snap (a c cell : ℕ) (r : Ride) (s : CellState)
    (orig : List Ride)
    (hall : ∀ x ∈ s.rides,
      SnapPriced distKm base_fare rate_per_km a c orig x) :
    ∀ x ∈ (processRide distKm base_fare rate_per_km tolerance
        a c cell r s).rides,
      SnapPriced distKm base_fare rate_per_km a c orig x := by
  obtain ⟨gid, pos, hpos, heq⟩ :=
    processRide_rides_eq distKm base_fare rate_per_km tolerance
      a c cell r s
  rw [heq]
  exact updateRide_snap distKm base_fare rate_per_km a c orig s.rides
    r.id gid r.pickup r.dropoff pos hpos hall

lemma foldRides_snap (a c cell : ℕ) (orig : List Ride) :
    ∀ (rs : List Ride) (s : CellState),
      (∀ x ∈ s.rides,
        SnapPriced distKm base_fare rate_per_km a c orig x) →
      ∀ x ∈ (rs.foldl (fun s r =>
          processRide distKm base_fare rate_per_km tolerance
            a c cell r s) s).rides,
        SnapPriced distKm base_fare rate_per_km a c orig x := by
  intro rs
  induction rs with
  | nil => intro s hall; exact hall
  | cons r rs ih =>
    intro s hall
    rw [List.foldl_cons]
    exact ih _ (processRide_snap distKm base_fare rate_per_km tolerance
      a c cell r s orig hall)

lemma processCell_snap (a c cell : ℕ) (rs : List Ride) (st : Store)
    (m : ℕ) (orig : List Ride)
    (hall : ∀ x ∈ st.rides,
      SnapPriced distKm base_fare rate_per_km a c orig x) :
    ∀ x ∈ (processCell distKm base_fare rate_per_km tolerance
        a c cell rs st m).1.rides,
      SnapPriced distKm base_fare rate_per_km a c orig x := by
  exact foldRides_snap distKm base_fare rate_per_km tolerance a c cell
    orig rs
    ⟨(st.groups.filter (inCell cell)).map
        (fun g => (g, gdataOf st.rides g.id)),
      st.cabs, st.rides, st.nextGroupId, m⟩ hall

lemma foldCells_snap (a c : ℕ) (pd orig : List Ride) :
    ∀ (cells : List ℕ) (p : Store × ℕ),
      (∀ x ∈ p.1.rides,
        SnapPriced distKm base_fare rate_per_km a c orig x) →
      ∀ x ∈ (cells.foldl (fun p cl =>
          processCell distKm base_fare rate_per_km tolerance a c cl
            (pd.filter fun r => decide (cellOf r.pickup = cl))
            p.1 p.2) p).1.rides,
        SnapPriced distKm base_fare rate_per_km a c orig x := by
  intro cells
  induction cells with
  | nil => intro p hall; exact hall
  | cons cl cells ih =>
    intro p hall
    rw [List.foldl_cons]
    exact ih _ (processCell_snap distKm base_fare rate_per_km tolerance
      a c cl (pd.filter fun r => decide (cellOf r.pickup = cl))
      p.1 p.2 orig hall)

/-- C4: `activeRequests` (pending count) and `availableCabs` (available
count) are snapshotted once at the start of the cycle, and every price
computed during the cycle is priced against exactly those snapshots
(the code hands the engine `max(available_cabs, 1)`): any ride in the
final store either kept an initial price or carries a price of that
snapshot form. -/
theorem surge_snapshot_per_cycle (st : Store) (x : Ride)
    (hx : x ∈ (run_grouping distKm cellOf base_fare rate_per_km
        tolerance st).1.rides) :
    SnapPriced distKm base_fare rate_per_km
      (st.rides.filter
        (fun r => decide (r.status = RideStatus.PENDING))).length
      (st.cabs.filter (fun c => c.is_available)).length
      st.rides x := by
  cases hb : (st.rides.filter
      (fun r => decide (r.status = RideStatus.PENDING))).isEmpty with
  | true =>
    rw [run_grouping] at hx
    simp only [hb, if_true] at hx
    exact Or.inl ⟨x, hx, rfl⟩
  | false =>
    rw [run_grouping] at hx
    simp only [hb, Bool.false_eq_true, if_false] at hx
    exact foldCells_snap distKm cellOf base_fare rate_per_km tolerance
      _ _ _ st.rides _ (st, 0) (fun y hy => Or.inl ⟨y, hy, rfl⟩) x hx

/-- C4 witness: the matched ride of the no-cab store carries a
snapshot-priced fare. -/
theorem surge_snapshot_per_cycle_witness :
    loneRideMatched ∈
      (run_grouping taxicab oneCell 50 15 (2/5) noCabStore).1.rides ∧
    SnapPriced taxicab 50 15
      (noCabStore.rides.filter
        (fun r => decide (r.status = RideStatus.PENDING))).length
      (noCabStore.cabs.filter (fun c => c.is_available)).length
      noCabStore.rides loneRideMatched := by
  have hlist : (run_grouping taxicab oneCell 50 15 (2/5)
      noCabStore).1.rides = [loneRideMatched] := by
    norm_num [run_grouping, noCabStore, loneRide, loneRideMatched,
      processCell, processRide, scanGroups, dedupFirst, gdataOf, inCell,
      updateRide, matchRide, oneCell, calculate_price, taxicab,
      compute_surge, poolCalculate, discountFor, round2, round_eq]
  have hmem : loneRideMatched ∈
      (run_grouping taxicab oneCell 50 15 (2/5) noCabStore).1.rides := by
    rw [hlist]; exact List.mem_cons_self _ _
  exact ⟨hmem, surge_snapshot_per_cycle taxicab oneCell 50 15 (2/5)
    noCabStore loneRideMatched hmem⟩

/-- C9: when any exception aborts the cycle before the commit, no
session mutation reaches the store — the store after the cycle equals
the store before it — and the `finally` clause still releases the
distributed lock; on the success path the lock is equally released and
the whole grouping result is committed as one unit. -/
theorem cycle_failure_atomic (token : String) (st : Store) :
    (run_matching_cycle distKm cellOf base_fare rate_per_km tolerance
      none token false st).1 = st ∧
    (run_matching_cycle distKm cellOf base_fare rate_per_km tolerance
      none token false st).2.1 = none ∧
    (run_matching_cycle distKm cellOf base_fare rate_per_km tolerance
      none token true st).2.1 = none ∧
    (run_matching_cycle distKm cellOf base_fare rate_per_km tolerance
      none token true st).1 =
      (run_grouping distKm cellOf base_fare rate_per_km tolerance
        st).1 := by
  refine ⟨?_, ?_, ?_, ?_⟩ <;>
    simp [run_matching_cycle, lock_acquire, lock_release]

end MatcherProofs

end SmartAirport
